import Mathlib

/-!
Verification of the QuavixAI reasoning-orchestration core: a shallow
embedding, in Lean, of the Go modules under `internal/modules` (llm engine,
prompt builder's payload extraction, 5-why orchestrator, memory engine,
pgvector store), together with theorems settling the frozen claims about
them.

Modelling conventions:
* Go strings are Lean `String`s; `len(s)` (a byte count in Go) is
  `String.utf8ByteSize`.  Where byte positions matter (payload extraction)
  the text is handled as its character list; `{` and `}` are single-byte,
  so character-position slices coincide with Go's byte-position slices.
* Go `float64`/`float32` values produced by the code are exact decimal
  constants, modelled as `ℚ`.
* Fallible Go functions returning `(T, error)` are modelled as
  `Except String T` (or with a structured error type where the code's
  distinct sentinel errors must be told apart).  Every `return nil, err`
  path of the source is an `Except.error`.
* External collaborators reached through interfaces (the provider back
  ends, redis, the SQL database, `encoding/json` decoding) are parameters
  of the embedded functions; the repository's own logic is embedded
  directly.
* Wall-clock values (`time.Now`, latency measurement) are threaded as an
  abstract tick where the code stores them, and omitted where they are
  only measured.
-/

namespace QuavixAI

/-! ## LLM module — `internal/modules/llm/engine.go` -/

/-- Reasoning mode. Go's `type Mode string`: an open string type with the
five named constants below. -/
abbrev Mode := String

def ModeReasoning : Mode := "reasoning"
def ModeAnalysis : Mode := "analysis"
def ModeDiagnosis : Mode := "diagnosis"
def ModePlanning : Mode := "planning"
def ModeDefault : Mode := "default"

/-- `llm.Request` (the `Metadata` map is carried nowhere by the engine and
is omitted). -/
structure Request where
  Mode : Mode
  Prompt : String
  Temperature : ℚ
  MaxTokens : Int
  deriving Repr, DecidableEq

/-- `llm.Response` (the wall-clock `Latency` field is omitted). -/
structure Response where
  Text : String
  Tokens : Int
  Provider : String
  Model : String
  Confidence : ℚ
  deriving Repr, DecidableEq

/-- `llm.ProviderRequest`. -/
structure ProviderRequest where
  Prompt : String
  Temperature : ℚ
  MaxTokens : Int
  Model : String
  deriving Repr, DecidableEq

/-- `llm.ProviderResponse` (unused `Metadata` omitted). -/
structure ProviderResponse where
  Text : String
  Tokens : Int
  Model : String
  deriving Repr, DecidableEq

/-- The distinct error identities `Engine.Generate` can return.  Go builds
each with a separate `errors.New`, so they are distinguishable values:
the empty-prompt validation error, the (defensively handled, never
produced) policy error, the `"llm provider not registered: " + name`
error, and an error propagated unchanged from a provider back end. -/
inductive GenError where
  | emptyPrompt : GenError
  | policyFailure (msg : String) : GenError
  | notRegistered (name : String) : GenError
  | providerFailure (msg : String) : GenError
  deriving Repr, DecidableEq

/-- A registered provider back end: `llm.Provider` (`Name()` plus
`Generate`), with its generation behaviour an arbitrary function. -/
structure Provider where
  Name : String
  Generate : ProviderRequest → Except String ProviderResponse

/-- `llm.Engine`: the provider registry (a Go map, modelled as a lookup
function) and the mode→model table. -/
structure Engine where
  providers : String → Option Provider
  modelMap : Mode → String

/-- The mode→model table installed by `NewEngine`; a Go map lookup of an
absent key yields the zero value `""`. -/
def newEngineModelMap : Mode → String := fun m =>
  if m = ModeReasoning then "reasoning-model"
  else if m = ModeAnalysis then "analysis-model"
  else if m = ModeDiagnosis then "diagnosis-model"
  else if m = ModePlanning then "planning-model"
  else if m = ModeDefault then "default-model"
  else ""

/-- `PolicyEngine.SelectProvider`: switch over the mode; every case,
including `default`, returns `("primary", nil)`. -/
def SelectProvider (mode : Mode) : Except GenError String :=
  if mode = ModeReasoning then .ok "primary"
  else if mode = ModeAnalysis then .ok "primary"
  else if mode = ModeDiagnosis then .ok "primary"
  else if mode = ModePlanning then .ok "primary"
  else .ok "primary"

/-- `PolicyEngine.EstimateConfidence`: a step function of `len(text)`. -/
def EstimateConfidence (mode : Mode) (text : String) : ℚ :=
  let l := text.utf8ByteSize
  if l > 1500 then 95/100
  else if l > 800 then 85/100
  else if l > 300 then 7/10
  else 1/2

/-- `if req.Mode == "" { req.Mode = ModeDefault }` — the engine's mode
defaulting, as a request transformer. -/
def defaultMode (req : Request) : Request :=
  if req.Mode = "" then { req with Mode := ModeDefault } else req

/-- `if req.MaxTokens == 0 { req.MaxTokens = 1024 }` — the engine's
max-token defaulting. -/
def defaultMaxTokens (req : Request) : Request :=
  if req.MaxTokens = 0 then { req with MaxTokens := 1024 } else req

/-- `model := e.modelMap[req.Mode]; if model == "" { model = e.modelMap[ModeDefault] }`. -/
def resolveModel (e : Engine) (m : Mode) : String :=
  if e.modelMap m = "" then e.modelMap ModeDefault else e.modelMap m

/-- `Engine.Generate`: validate the prompt, default the mode, route via
policy, look up the provider, resolve the model, default max-tokens,
dispatch, and assemble the response with its confidence score. -/
def Engine.Generate (e : Engine) (req0 : Request) : Except GenError Response :=
  if req0.Prompt = "" then .error .emptyPrompt
  else
    let req1 := defaultMode req0
    match SelectProvider req1.Mode with
    | .error err => .error err
    | .ok providerName =>
      match e.providers providerName with
      | none => .error (.notRegistered providerName)
      | some provider =>
        let model := resolveModel e req1.Mode
        let req2 := defaultMaxTokens req1
        match provider.Generate
            { Prompt := req2.Prompt, Temperature := req2.Temperature,
              MaxTokens := req2.MaxTokens, Model := model } with
        | .error msg => .error (.providerFailure msg)
        | .ok pResp =>
          .ok { Text := pResp.Text, Tokens := pResp.Tokens,
                Provider := provider.Name, Model := pResp.Model,
                Confidence := EstimateConfidence req2.Mode pResp.Text }

/-! Helper facts about the engine. -/

/-- A string of `n` copies of `'a'` has byte length `n`. -/
theorem utf8ByteSize_replicate_a (n : Nat) :
    (String.mk (List.replicate n 'a')).utf8ByteSize = n := by
  show String.utf8Len (List.replicate n 'a') = n
  induction n with
  | zero => rfl
  | succ k ih =>
    rw [List.replicate_succ]
    show String.utf8Len (List.replicate k 'a') + 'a'.utf8Size = k + 1
    rw [ih, show 'a'.utf8Size = 1 from by decide]

/-- An `'a'`-run of a given byte length, used to exercise the confidence
thresholds at concrete lengths. -/
def aRun (n : Nat) : String := String.mk (List.replicate n 'a')

/-- Every arm of `SelectProvider`'s switch returns `("primary", nil)`. -/
theorem selectProvider_eq (m : Mode) : SelectProvider m = .ok "primary" := by
  unfold SelectProvider
  split_ifs <;> rfl

/-- An engine with no providers registered, and one with a single echoing
provider registered under `"primary"`, for concrete witnesses. -/
def emptyEngine : Engine :=
  { providers := fun _ => none, modelMap := newEngineModelMap }

def echoProvider : Provider :=
  { Name := "primary",
    Generate := fun pr => .ok { Text := pr.Prompt, Tokens := 128, Model := pr.Model } }

def echoEngine : Engine :=
  { providers := fun n => if n = "primary" then some echoProvider else none,
    modelMap := newEngineModelMap }

/-! ## Claims about the LLM module -/

/-- Claim C3: for every mode and output text the confidence score is the
step function of the text's byte length (`> 1500 ↦ 0.95`, `> 800 ↦ 0.85`,
`> 300 ↦ 0.70`, else `0.50`, so lengths 50/301/801/1501 give
0.50/0.70/0.85/0.95); it lies in `[0,1]`; and every successful `Generate`
response carries exactly this score of its own text. -/
theorem confidence_step_function (m : Mode) (t : String) :
    EstimateConfidence m t =
      (if t.utf8ByteSize > 1500 then 95/100
       else if t.utf8ByteSize > 800 then 85/100
       else if t.utf8ByteSize > 300 then 7/10 else 1/2)
    ∧ (0 ≤ EstimateConfidence m t ∧ EstimateConfidence m t ≤ 1)
    ∧ (t.utf8ByteSize = 50 → EstimateConfidence m t = 1/2)
    ∧ (t.utf8ByteSize = 301 → EstimateConfidence m t = 7/10)
    ∧ (t.utf8ByteSize = 801 → EstimateConfidence m t = 85/100)
    ∧ (t.utf8ByteSize = 1501 → EstimateConfidence m t = 95/100)
    ∧ (∀ (e : Engine) (req : Request) (resp : Response),
        Engine.Generate e req = .ok resp →
        resp.Confidence = EstimateConfidence req.Mode resp.Text) := by
  refine ⟨rfl, ?_, ?_, ?_, ?_, ?_, ?_⟩
  · unfold EstimateConfidence
    dsimp only
    split_ifs <;> norm_num
  · intro h; simp [EstimateConfidence, h]
  · intro h; simp [EstimateConfidence, h]
  · intro h; simp [EstimateConfidence, h]
  · intro h; simp [EstimateConfidence, h]
  · intro e req resp h
    simp only [Engine.Generate, selectProvider_eq] at h
    split at h
    · exact Except.noConfusion h
    · split at h
      · exact Except.noConfusion h
      · split at h
        · exact Except.noConfusion h
        · injection h with h
          subst h
          rfl

/-- Closed instance of C3 at the four boundary lengths. -/
theorem confidence_step_function_witness :
    EstimateConfidence ModeDefault (aRun 50) = 1/2
    ∧ EstimateConfidence ModeAnalysis (aRun 301) = 7/10
    ∧ EstimateConfidence ModeReasoning (aRun 801) = 85/100
    ∧ EstimateConfidence ModePlanning (aRun 1501) = 95/100 :=
  ⟨(confidence_step_function ModeDefault (aRun 50)).2.2.1 (utf8ByteSize_replicate_a 50),
   (confidence_step_function ModeAnalysis (aRun 301)).2.2.2.1 (utf8ByteSize_replicate_a 301),
   (confidence_step_function ModeReasoning (aRun 801)).2.2.2.2.1 (utf8ByteSize_replicate_a 801),
   (confidence_step_function ModePlanning (aRun 1501)).2.2.2.2.2.1 (utf8ByteSize_replicate_a 1501)⟩

/-- Claim C4: `Engine.Generate` fails with the invalid-request error exactly
when the prompt is empty; an unset mode is replaced by `default` and a zero
max-token budget by 1024 before dispatch (the run equals the run on the
substituted request); and whenever no provider is registered under the
policy-selected name `"primary"`, it fails with the backend-not-registered
error naming that back end, irrespective of every other registered
provider (none is called). -/
theorem generate_validation_and_routing (e : Engine) (req : Request) :
    (Engine.Generate e req = .error .emptyPrompt ↔ req.Prompt = "")
    ∧ (req.Mode = "" →
        Engine.Generate e req = Engine.Generate e { req with Mode := ModeDefault })
    ∧ (req.MaxTokens = 0 →
        Engine.Generate e req = Engine.Generate e { req with MaxTokens := 1024 })
    ∧ (req.Prompt ≠ "" → e.providers "primary" = none →
        Engine.Generate e req = .error (.notRegistered "primary")) := by
  refine ⟨⟨?_, ?_⟩, ?_, ?_, ?_⟩
  · intro h
    by_contra hp
    simp only [Engine.Generate, selectProvider_eq] at h
    rw [if_neg hp] at h
    split at h
    · simp at h
    · split at h
      · simp at h
      · exact Except.noConfusion h
  · intro h
    unfold Engine.Generate
    rw [if_pos h]
  · intro h
    obtain ⟨mo, pr, te, mt⟩ := req
    simp only at h
    subst h
    rfl
  · intro h
    obtain ⟨mo, pr, te, mt⟩ := req
    simp only at h
    subst h
    by_cases hm : mo = ""
    · subst hm; rfl
    · simp [Engine.Generate, defaultMode, defaultMaxTokens, selectProvider_eq, hm]
  · intro hp hnone
    simp [Engine.Generate, selectProvider_eq, hnone, if_neg hp]

/-- Closed instance of C4: on an engine with no registered providers, an
empty prompt yields the invalid-request error and a non-empty prompt the
backend-not-registered error naming `"primary"`. -/
theorem generate_validation_witness :
    Engine.Generate emptyEngine
        { Mode := "", Prompt := "", Temperature := 0, MaxTokens := 0 } =
      .error .emptyPrompt
    ∧ Engine.Generate emptyEngine
        { Mode := ModeReasoning, Prompt := "why?", Temperature := 0, MaxTokens := 0 } =
      .error (.notRegistered "primary") :=
  ⟨(generate_validation_and_routing emptyEngine _).1.mpr rfl,
   (generate_validation_and_routing emptyEngine _).2.2.2 (by decide) rfl⟩

/-- Claim C9: `SelectProvider` is total and constant — every mode,
including strings outside the declared enum, maps to `"primary"` with no
error — and consequently the policy-error propagation branch of
`Engine.Generate` can never fire: no run of `Engine.Generate` returns a
policy error. -/
theorem selectProvider_total_constant :
    (∀ m : Mode, SelectProvider m = .ok "primary")
    ∧ (∀ (e : Engine) (req : Request) (msg : String),
        Engine.Generate e req ≠ .error (.policyFailure msg)) := by
  refine ⟨selectProvider_eq, ?_⟩
  intro e req msg h
  simp only [Engine.Generate, selectProvider_eq] at h
  split at h
  · simp at h
  · split at h
    · simp at h
    · split at h
      · simp at h
      · exact Except.noConfusion h

/-- Closed instance of C9 at a mode outside the enum and at a concrete
engine. -/
theorem selectProvider_total_constant_witness :
    SelectProvider "no-such-mode" = .ok "primary"
    ∧ Engine.Generate emptyEngine
        { Mode := "no-such-mode", Prompt := "hello", Temperature := 0, MaxTokens := 0 } ≠
      .error (.policyFailure "boom") :=
  ⟨selectProvider_total_constant.1 "no-such-mode",
   selectProvider_total_constant.2 emptyEngine _ "boom"⟩

/-- Claim C10: confidence estimation is independent of the reasoning mode:
for any two modes the score of the same text is identical, although the
mode is passed as an argument. -/
theorem estimateConfidence_mode_independent (m1 m2 : Mode) (t : String) :
    EstimateConfidence m1 t = EstimateConfidence m2 t := rfl

/-! ## Domain records — `internal/modules/types` -/

/-- `types.FiveWhyStep`. -/
structure FiveWhyStep where
  Level : Nat
  Question : String
  Answer : String
  Analysis : String
  deriving Repr, DecidableEq

/-- `types.RootCauseResult`. -/
structure RootCauseResult where
  RootCause : String
  Confidence : ℚ
  Evidence : List String
  Category : String
  ImpactScope : String
  deriving Repr, DecidableEq

/-- `types.SolutionResult`. -/
structure SolutionResult where
  Immediate : List String
  Strategic : List String
  Preventive : List String
  Automation : List String
  Owner : String
  Complexity : String
  TimeHorizon : String
  deriving Repr, DecidableEq

/-- `types.ReframedQuestion`. -/
structure ReframedQuestion where
  Original : String
  Reframed : String
  Intent : String
  Goal : String
  deriving Repr, DecidableEq

/-- `vector.Document` (`internal/modules/vector/pgvector.go`): the `Meta`
string map is modelled as an association list. -/
structure Document where
  ID : String
  Content : String
  Vector : List ℚ
  Meta : List (String × String)
  deriving Repr, DecidableEq

/-! ## Orchestrator — `internal/modules/chat/orchestrator.go` -/

/-- `chat.FiveWhySession` (the wall-clock `CreatedAt` field is omitted). -/
structure FiveWhySession where
  SessionID : String
  Steps : List FiveWhyStep
  RootCause : RootCauseResult
  Solution : SolutionResult
  Reframed : ReframedQuestion
  deriving Repr, DecidableEq

/-- The `prompt.Builder` interface the orchestrator holds: template
renderers (whose text content is irrelevant to the pipeline's control
flow) and the three payload parsers. -/
structure Builder where
  BuildFiveWhyPrompt : Nat → String → String
  BuildEvaluationPrompt : String → String → String
  BuildNextWhyPrompt : String → String
  BuildRootCausePrompt : List FiveWhyStep → String
  BuildSolutionPrompt : RootCauseResult → List FiveWhyStep → String
  BuildReframePrompt : String → RootCauseResult → String
  ParseRootCause : String → Except String RootCauseResult
  ParseSolution : String → Except String SolutionResult
  ParseReframe : String → Except String ReframedQuestion

/-- `chat.Orchestrator`: the LLM manager (its `Generate`, an arbitrary
fallible function) and the prompt builder. -/
structure Orchestrator where
  gen : Request → Except String Response
  prompt : Builder

/-- `llm.Request{Mode: m, Prompt: p}` — the orchestrator builds requests
with only these two fields set; the others are Go zero values. -/
def mkReq (m : Mode) (p : String) : Request :=
  { Mode := m, Prompt := p, Temperature := 0, MaxTokens := 0 }

/-- The `for i := 1; i <= 5; i++` loop of `RunFiveWhy`: at level `i` it
generates the why-answer, the evaluation, appends the step, and generates
the next why question.  `n` is the number of iterations left, `i` the
current level. -/
def fiveWhyLoop (o : Orchestrator) :
    Nat → Nat → List FiveWhyStep → String → Except String (List FiveWhyStep × String)
  | 0, _, steps, q => .ok (steps, q)
  | n + 1, i, steps, q =>
    match o.gen (mkReq ModeReasoning (o.prompt.BuildFiveWhyPrompt i q)) with
    | .error e => .error e
    | .ok resp =>
      match o.gen (mkReq ModeAnalysis (o.prompt.BuildEvaluationPrompt q resp.Text)) with
      | .error e => .error e
      | .ok analysisResp =>
        let step : FiveWhyStep :=
          { Level := i, Question := q, Answer := resp.Text, Analysis := analysisResp.Text }
        match o.gen (mkReq ModeReasoning (o.prompt.BuildNextWhyPrompt resp.Text)) with
        | .error e => .error e
        | .ok nextResp => fiveWhyLoop o n (i + 1) (steps ++ [step]) nextResp.Text

/-- `Orchestrator.RunFiveWhy`.  Result on success is the session paired
with the list of `vector.Store` calls issued at the end of the run (their
documents, in call order); every `return nil, err` path of the source is
an `Except.error`.  `store` is the `vector.Store` collaborator; each call's
result is discarded exactly as Go's `_ =` does. -/
def RunFiveWhy (o : Orchestrator) (store : Document → Except String Unit)
    (sessionID userQuestion : String) :
    Except String (FiveWhySession × List Document) :=
  if userQuestion = "" then .error "empty question"
  else
    match fiveWhyLoop o 5 1 [] userQuestion with
    | .error e => .error e
    | .ok (steps, _) =>
      match o.gen (mkReq ModeDiagnosis (o.prompt.BuildRootCausePrompt steps)) with
      | .error e => .error e
      | .ok rcaResp =>
        match o.prompt.ParseRootCause rcaResp.Text with
        | .error e => .error e
        | .ok rootCause =>
          match o.gen (mkReq ModePlanning (o.prompt.BuildSolutionPrompt rootCause steps)) with
          | .error e => .error e
          | .ok solResp =>
            match o.prompt.ParseSolution solResp.Text with
            | .error e => .error e
            | .ok solution =>
              match o.gen (mkReq ModeReasoning
                  (o.prompt.BuildReframePrompt userQuestion rootCause)) with
              | .error e => .error e
              | .ok reframeResp =>
                match o.prompt.ParseReframe reframeResp.Text with
                | .error e => .error e
                | .ok reframed =>
                  let doc1 : Document :=
                    { ID := sessionID, Content := userQuestion, Vector := [],
                      Meta := [("type", "question")] }
                  let doc2 : Document :=
                    { ID := sessionID ++ "_rca", Content := rootCause.RootCause,
                      Vector := [], Meta := [("type", "root_cause")] }
                  let doc3 : Document :=
                    { ID := sessionID ++ "_solution", Content := solResp.Text,
                      Vector := [], Meta := [("type", "solution")] }
                  let _ := store doc1
                  let _ := store doc2
                  let _ := store doc3
                  .ok ({ SessionID := sessionID, Steps := steps, RootCause := rootCause,
                         Solution := solution, Reframed := reframed },
                       [doc1, doc2, doc3])

/-- Mapping `i + ·` over `range (n+1)` peels off `i` and shifts. -/
theorem range_map_add (i n : Nat) :
    (List.range (n + 1)).map (i + ·) = i :: (List.range n).map ((i + 1) + ·) := by
  rw [List.range_succ_eq_map]
  simp only [List.map_cons, List.map_map, Nat.add_zero]
  congr 1
  apply List.map_congr_left
  intro a _
  simp only [Function.comp_apply]
  omega

/-- Whenever the why-loop succeeds, the steps it appends carry the levels
`i, i+1, …` in order after whatever was accumulated before. -/
theorem fiveWhyLoop_levels (o : Orchestrator) :
    ∀ (n i : Nat) (steps res : List FiveWhyStep) (q q' : String),
      fiveWhyLoop o n i steps q = .ok (res, q') →
      res.map FiveWhyStep.Level =
        steps.map FiveWhyStep.Level ++ (List.range n).map (i + ·) := by
  intro n
  induction n with
  | zero =>
    intro i steps res q q' h
    simp only [fiveWhyLoop] at h
    injection h with h
    injection h with h1 h2
    subst h1
    simp
  | succ n ih =>
    intro i steps res q q' h
    unfold fiveWhyLoop at h
    split at h
    · exact Except.noConfusion h
    split at h
    · exact Except.noConfusion h
    split at h
    · exact Except.noConfusion h
    have h2 := ih (i + 1) _ res _ q' h
    rw [h2, range_map_add]
    simp

/-- Inversion of a successful `RunFiveWhy` run: the loop succeeded, each
of the three parses succeeded, and the session and the stored documents
are assembled exactly from those results. -/
theorem runFiveWhy_ok_inv (o : Orchestrator) (store : Document → Except String Unit)
    (sid q : String) (s : FiveWhySession) (log : List Document)
    (h : RunFiveWhy o store sid q = .ok (s, log)) :
    ∃ steps q2 rcaText solText refText rootCause solution reframed,
      fiveWhyLoop o 5 1 [] q = .ok (steps, q2)
      ∧ o.prompt.ParseRootCause rcaText = .ok rootCause
      ∧ o.prompt.ParseSolution solText = .ok solution
      ∧ o.prompt.ParseReframe refText = .ok reframed
      ∧ s = { SessionID := sid, Steps := steps, RootCause := rootCause,
              Solution := solution, Reframed := reframed }
      ∧ log = [{ ID := sid, Content := q, Vector := [], Meta := [("type", "question")] },
               { ID := sid ++ "_rca", Content := rootCause.RootCause, Vector := [],
                 Meta := [("type", "root_cause")] },
               { ID := sid ++ "_solution", Content := solText, Vector := [],
                 Meta := [("type", "solution")] }] := by
  unfold RunFiveWhy at h
  split at h
  · exact Except.noConfusion h
  split at h
  · exact Except.noConfusion h
  rename_i steps q2 hloop
  split at h
  · exact Except.noConfusion h
  rename_i rcaResp hrca
  split at h
  · exact Except.noConfusion h
  rename_i rootCause hparseRC
  split at h
  · exact Except.noConfusion h
  rename_i solResp hsol
  split at h
  · exact Except.noConfusion h
  rename_i solution hparseSol
  split at h
  · exact Except.noConfusion h
  rename_i reframeResp href
  split at h
  · exact Except.noConfusion h
  rename_i reframed hparseRef
  injection h with h
  injection h with h1 h2
  subst h1
  subst h2
  exact ⟨steps, q2, rcaResp.Text, solResp.Text, reframeResp.Text,
         rootCause, solution, reframed,
         hloop, hparseRC, hparseSol, hparseRef, rfl, rfl⟩

/-! ## Claims about the orchestrator -/

/-- Claim C1: on every input where `RunFiveWhy` succeeds, the returned
session has exactly 5 steps with levels 1..5 contiguous and in order, and
its RootCause, Solution and Reframed fields come from successful parses;
every failing path is an `Except.error` carrying no session (the
embedding's success/error split mirrors the source, where each failing
path is `return nil, err`). -/
theorem runFiveWhy_success_shape (o : Orchestrator) (store : Document → Except String Unit)
    (sid q : String) (s : FiveWhySession) (log : List Document)
    (h : RunFiveWhy o store sid q = .ok (s, log)) :
    s.Steps.length = 5
    ∧ s.Steps.map FiveWhyStep.Level = [1, 2, 3, 4, 5]
    ∧ s.SessionID = sid
    ∧ (∃ t, o.prompt.ParseRootCause t = .ok s.RootCause)
    ∧ (∃ t, o.prompt.ParseSolution t = .ok s.Solution)
    ∧ (∃ t, o.prompt.ParseReframe t = .ok s.Reframed) := by
  obtain ⟨steps, q2, t1, t2, t3, rc, sol, ref, hloop, h1, h2, h3, hs, hlog⟩ :=
    runFiveWhy_ok_inv o store sid q s log h
  subst hs
  have hmap := fiveWhyLoop_levels o 5 1 [] steps q q2 hloop
  simp only [List.map_nil, List.nil_append] at hmap
  have hrange : (List.range 5).map (1 + ·) = [1, 2, 3, 4, 5] := by decide
  rw [hrange] at hmap
  refine ⟨?_, hmap, rfl, ⟨t1, h1⟩, ⟨t2, h2⟩, ⟨t3, h3⟩⟩
  have := congrArg List.length hmap
  simpa using this

/-- Claim C6: after the reframing step of a successful run exactly three
vector documents are stored — the original question under the session id
tagged `question`, the root-cause text under `sid_rca` tagged
`root_cause`, and the raw solution text under `sid_solution` tagged
`solution` — and the outcome of the store calls never changes what
`RunFiveWhy` returns (the run is literally independent of the store
collaborator's results). -/
theorem runFiveWhy_stores_three (o : Orchestrator)
    (store store2 : Document → Except String Unit) (sid q : String) :
    (∀ s log, RunFiveWhy o store sid q = .ok (s, log) →
      ∃ solText,
        o.prompt.ParseSolution solText = .ok s.Solution
        ∧ log = [{ ID := sid, Content := q, Vector := [], Meta := [("type", "question")] },
                 { ID := sid ++ "_rca", Content := s.RootCause.RootCause, Vector := [],
                   Meta := [("type", "root_cause")] },
                 { ID := sid ++ "_solution", Content := solText, Vector := [],
                   Meta := [("type", "solution")] }])
    ∧ RunFiveWhy o store sid q = RunFiveWhy o store2 sid q := by
  constructor
  · intro s log h
    obtain ⟨steps, q2, t1, t2, t3, rc, sol, ref, hloop, h1, h2, h3, hs, hlog⟩ :=
      runFiveWhy_ok_inv o store sid q s log h
    subst hs
    exact ⟨t2, h2, hlog⟩
  · rfl

/-! Concrete pipeline instance for the witnesses: an echoing generator and
parsers that accept everything. -/

def demoRC : RootCauseResult :=
  { RootCause := "root", Confidence := 1/2, Evidence := [],
    Category := "technical", ImpactScope := "team" }

def demoSol : SolutionResult :=
  { Immediate := [], Strategic := [], Preventive := [], Automation := [],
    Owner := "owner", Complexity := "low", TimeHorizon := "short" }

def demoRef : ReframedQuestion :=
  { Original := "why?", Reframed := "how?", Intent := "intent", Goal := "goal" }

def demoBuilder : Builder :=
  { BuildFiveWhyPrompt := fun _ q => q,
    BuildEvaluationPrompt := fun q _ => q,
    BuildNextWhyPrompt := fun a => a,
    BuildRootCausePrompt := fun _ => "rc",
    BuildSolutionPrompt := fun _ _ => "sol",
    BuildReframePrompt := fun q _ => q,
    ParseRootCause := fun _ => .ok demoRC,
    ParseSolution := fun _ => .ok demoSol,
    ParseReframe := fun _ => .ok demoRef }

def demoOrch : Orchestrator :=
  { gen := fun req =>
      .ok { Text := req.Prompt, Tokens := 1, Provider := "primary",
            Model := "m", Confidence := 1/2 },
    prompt := demoBuilder }

def demoStore : Document → Except String Unit := fun _ => .ok ()

def demoStep (i : Nat) : FiveWhyStep :=
  { Level := i, Question := "why?", Answer := "why?", Analysis := "why?" }

def demoSession : FiveWhySession :=
  { SessionID := "sid",
    Steps := [demoStep 1, demoStep 2, demoStep 3, demoStep 4, demoStep 5],
    RootCause := demoRC, Solution := demoSol, Reframed := demoRef }

def demoLog : List Document :=
  [{ ID := "sid", Content := "why?", Vector := [], Meta := [("type", "question")] },
   { ID := "sid_rca", Content := "root", Vector := [], Meta := [("type", "root_cause")] },
   { ID := "sid_solution", Content := "sol", Vector := [], Meta := [("type", "solution")] }]

/-- Closed instance of C1: the demo pipeline run succeeds and its session
has the five ordered levels. -/
theorem runFiveWhy_success_shape_witness :
    RunFiveWhy demoOrch demoStore "sid" "why?" = .ok (demoSession, demoLog)
    ∧ demoSession.Steps.map FiveWhyStep.Level = [1, 2, 3, 4, 5] :=
  ⟨rfl,
   (runFiveWhy_success_shape demoOrch demoStore "sid" "why?" demoSession demoLog
      rfl).2.1⟩

/-- Closed instance of C6: the demo run's stored documents, and the run's
independence of a store that always fails. -/
theorem runFiveWhy_stores_three_witness :
    (∃ solText,
        demoOrch.prompt.ParseSolution solText = .ok demoSession.Solution
        ∧ demoLog =
            [{ ID := "sid", Content := "why?", Vector := [], Meta := [("type", "question")] },
             { ID := "sid" ++ "_rca", Content := demoSession.RootCause.RootCause, Vector := [],
               Meta := [("type", "root_cause")] },
             { ID := "sid" ++ "_solution", Content := solText, Vector := [],
               Meta := [("type", "solution")] }])
    ∧ RunFiveWhy demoOrch demoStore "sid" "why?" =
        RunFiveWhy demoOrch (fun _ => .error "unavailable") "sid" "why?" :=
  ⟨(runFiveWhy_stores_three demoOrch demoStore (fun _ => .error "unavailable") "sid" "why?").1
      demoSession demoLog rfl,
   (runFiveWhy_stores_three demoOrch demoStore (fun _ => .error "unavailable") "sid" "why?").2⟩

/-! ## Prompt builder payload extraction — `internal/modules/prompt/builder.go`

The extraction works on the raw model output, here as its character list
(`{` and `}` are single-byte, so Go's byte positions and these character
positions delimit the same slice).  `encoding/json` decoding is an
external library: the check `json.Unmarshal(jsonStr, &map)` is the
parameter `decodeOK`, and the subsequent decode into the typed record is
the parameter `decodeRC`/`decodeSol`/`decodeRef`. -/

/-- `strings.TrimSpace`: drop whitespace from both ends. -/
def trimChars (cs : List Char) : List Char :=
  ((cs.dropWhile Char.isWhitespace).reverse.dropWhile Char.isWhitespace).reverse

/-- `strings.Index(raw, c)`: position of the first occurrence of `c`
(`none` for Go's `-1`). -/
def firstIndexOf (c : Char) : List Char → Option Nat
  | [] => none
  | x :: xs => if x = c then some 0 else (firstIndexOf c xs).map (· + 1)

/-- `strings.LastIndex(raw, c)`: position of the last occurrence of `c`. -/
def lastIndexOf (c : Char) : List Char → Option Nat
  | [] => none
  | x :: xs =>
    match lastIndexOf c xs with
    | some k => some (k + 1)
    | none => if x = c then some 0 else none

/-- `raw[s:e]`: the half-open slice. -/
def sliceChars (cs : List Char) (s e : Nat) : List Char := (cs.drop s).take (e - s)

/-- `prompt.extractJSON`: trim, slice from the first `{` to the last `}`
inclusive, fail if no such pair exists, then check the slice decodes as a
structured object (`decodeOK`). -/
def extractJSON (decodeOK : List Char → Bool) (raw0 : List Char) :
    Except String (List Char) :=
  let raw := trimChars raw0
  match firstIndexOf '{' raw, lastIndexOf '}' raw with
  | some s, some e =>
    if e ≤ s then .error "no json found in llm output"
    else
      let jsonStr := sliceChars raw s (e + 1)
      if decodeOK jsonStr then .ok jsonStr
      else .error "invalid json structure"
  | some _, none => .error "no json found in llm output"
  | none, _ => .error "no json found in llm output"

/-- `PromptBuilder.ParseRootCause`: extract, then decode into the record. -/
def PromptBuilder.ParseRootCause (decodeOK : List Char → Bool)
    (decodeRC : List Char → Option RootCauseResult) (raw : List Char) :
    Except String RootCauseResult :=
  match extractJSON decodeOK raw with
  | .error e => .error e
  | .ok js =>
    match decodeRC js with
    | some rc => .ok rc
    | none => .error "unmarshal failed"

/-- `PromptBuilder.ParseSolution`. -/
def PromptBuilder.ParseSolution (decodeOK : List Char → Bool)
    (decodeSol : List Char → Option SolutionResult) (raw : List Char) :
    Except String SolutionResult :=
  match extractJSON decodeOK raw with
  | .error e => .error e
  | .ok js =>
    match decodeSol js with
    | some sol => .ok sol
    | none => .error "unmarshal failed"

/-- `PromptBuilder.ParseReframe`. -/
def PromptBuilder.ParseReframe (decodeOK : List Char → Bool)
    (decodeRef : List Char → Option ReframedQuestion) (raw : List Char) :
    Except String ReframedQuestion :=
  match extractJSON decodeOK raw with
  | .error e => .error e
  | .ok js =>
    match decodeRef js with
    | some ref => .ok ref
    | none => .error "unmarshal failed"

/-! Semantic characterisation of the index functions. -/

/-- `firstIndexOf` finds no occurrence iff there is none. -/
theorem firstIndexOf_eq_none (c : Char) :
    ∀ cs : List Char, firstIndexOf c cs = none ↔ ∀ k : Nat, cs[k]? ≠ some c := by
  intro cs
  induction cs with
  | nil => simp [firstIndexOf]
  | cons x xs ih =>
    unfold firstIndexOf
    by_cases hx : x = c
    · constructor
      · intro h; rw [if_pos hx] at h; exact Option.noConfusion h
      · intro h; exact absurd (by simp [hx]) (h 0)
    · rw [if_neg hx]
      simp only [Option.map_eq_none']
      rw [ih]
      constructor
      · intro h k
        cases k with
        | zero => simpa using hx
        | succ k' => simpa using h k'
      · intro h k
        simpa using h (k + 1)

/-- `firstIndexOf` returns `some i` iff position `i` holds `c` and every
earlier position does not. -/
theorem firstIndexOf_eq_some (c : Char) :
    ∀ (cs : List Char) (i : Nat),
      firstIndexOf c cs = some i ↔
        cs[i]? = some c ∧ ∀ k : Nat, k < i → cs[k]? ≠ some c := by
  intro cs
  induction cs with
  | nil => intro i; simp [firstIndexOf]
  | cons x xs ih =>
    intro i
    unfold firstIndexOf
    by_cases hx : x = c
    · subst hx
      rw [if_pos rfl]
      cases i with
      | zero => simp
      | succ j =>
        simp only [List.getElem?_cons_succ, Option.some.injEq]
        constructor
        · intro h; exact absurd h (by omega)
        · rintro ⟨_, hall⟩
          exact absurd (show (x :: xs)[0]? = some x by simp)
            (hall 0 (Nat.succ_pos j))
    · rw [if_neg hx]
      cases i with
      | zero =>
        simp only [List.getElem?_cons_zero, Option.map_eq_some', Option.some.injEq]
        constructor
        · rintro ⟨j, _, hj⟩; omega
        · rintro ⟨hc, _⟩; exact absurd hc hx
      | succ j =>
        simp only [List.getElem?_cons_succ, Option.map_eq_some']
        constructor
        · rintro ⟨k, hk, hkj⟩
          have hkj' : k = j := by omega
          rw [hkj'] at hk
          obtain ⟨h1, h2⟩ := (ih j).mp hk
          refine ⟨h1, ?_⟩
          intro m hm
          cases m with
          | zero => simpa using hx
          | succ m' => simpa using h2 m' (by omega)
        · rintro ⟨h1, h2⟩
          refine ⟨j, (ih j).mpr ⟨h1, ?_⟩, rfl⟩
          intro k hk
          simpa using h2 (k + 1) (by omega)

/-- `lastIndexOf` finds no occurrence iff there is none. -/
theorem lastIndexOf_eq_none (c : Char) :
    ∀ cs : List Char, lastIndexOf c cs = none ↔ ∀ k : Nat, cs[k]? ≠ some c := by
  intro cs
  induction cs with
  | nil => simp [lastIndexOf]
  | cons x xs ih =>
    unfold lastIndexOf
    cases hl : lastIndexOf c xs with
    | some k =>
      constructor
      · intro h; exact Option.noConfusion h
      · intro h
        have : lastIndexOf c xs = none := by
          rw [ih]; intro m; simpa using h (m + 1)
        rw [hl] at this
        exact Option.noConfusion this
    | none =>
      by_cases hx : x = c
      · rw [if_pos hx]
        constructor
        · intro h; exact Option.noConfusion h
        · intro h; exact absurd (by simp [hx]) (h 0)
      · rw [if_neg hx]
        simp only [true_iff]
        intro k
        cases k with
        | zero => simpa using hx
        | succ k' => simpa using (ih.mp hl) k'

/-- `lastIndexOf` returns `some i` iff position `i` holds `c` and every
later position does not. -/
theorem lastIndexOf_eq_some (c : Char) :
    ∀ (cs : List Char) (i : Nat),
      lastIndexOf c cs = some i ↔
        cs[i]? = some c ∧ ∀ k : Nat, i < k → cs[k]? ≠ some c := by
  intro cs
  induction cs with
  | nil => intro i; simp [lastIndexOf]
  | cons x xs ih =>
    intro i
    unfold lastIndexOf
    cases hl : lastIndexOf c xs with
    | some k =>
      obtain ⟨hk1, hk2⟩ := (ih k).mp hl
      cases i with
      | zero =>
        simp only [Option.some.injEq]
        constructor
        · intro h; omega
        · rintro ⟨_, h2⟩
          exact absurd hk1 (by simpa using h2 (k + 1) (by omega))
      | succ j =>
        simp only [Option.some.injEq]
        constructor
        · intro h
          have hj : k = j := by omega
          subst hj
          refine ⟨by simpa using hk1, ?_⟩
          intro m hm
          cases m with
          | zero => omega
          | succ m' => simpa using hk2 m' (by omega)
        · rintro ⟨h1, h2⟩
          have := (ih j).mpr ⟨by simpa using h1,
            fun m hm => by simpa using h2 (m + 1) (by omega)⟩
          rw [hl] at this
          have := Option.some.inj this
          omega
    | none =>
      have hnone := (lastIndexOf_eq_none c xs).mp hl
      by_cases hx : x = c
      · rw [if_pos hx]
        cases i with
        | zero =>
          simp only [Option.some.injEq, List.getElem?_cons_zero]
          constructor
          · intro _
            refine ⟨by simp [hx], ?_⟩
            intro k hk
            cases k with
            | zero => omega
            | succ k' => simpa using hnone k'
          · intro _; trivial
        | succ j =>
          constructor
          · intro h; exact absurd (Option.some.inj h) (by omega)
          · rintro ⟨h1, _⟩
            exact absurd (by simpa using h1) (hnone j)
      · rw [if_neg hx]
        constructor
        · intro h; exact Option.noConfusion h
        · rintro ⟨h1, _⟩
          cases i with
          | zero => exact absurd (by simpa using h1) hx
          | succ j => exact absurd (by simpa using h1) (hnone j)

/-- `extractJSON` with the `let` bindings inlined (definitional). -/
theorem extractJSON_eq (d : List Char → Bool) (raw0 : List Char) :
    extractJSON d raw0 =
      match firstIndexOf '{' (trimChars raw0), lastIndexOf '}' (trimChars raw0) with
      | some s, some e =>
        if e ≤ s then .error "no json found in llm output"
        else if d (sliceChars (trimChars raw0) s (e + 1)) then
          .ok (sliceChars (trimChars raw0) s (e + 1))
        else .error "invalid json structure"
      | some _, none => .error "no json found in llm output"
      | none, _ => .error "no json found in llm output" := rfl

/-- `extractJSON` succeeds iff a first `\x7b` strictly precedes a last
`\x7d` in the trimmed text and the greedy slice passes the decode check. -/
theorem extractJSON_ok_iff (d : List Char → Bool) (raw0 : List Char) :
    (∃ js, extractJSON d raw0 = .ok js) ↔
      ∃ s e, firstIndexOf '{' (trimChars raw0) = some s
           ∧ lastIndexOf '}' (trimChars raw0) = some e ∧ s < e
           ∧ d (sliceChars (trimChars raw0) s (e + 1)) = true := by
  cases hf : firstIndexOf '{' (trimChars raw0) with
  | none =>
    simp only [extractJSON_eq, hf]
    constructor
    · rintro ⟨js, h⟩; exact Except.noConfusion h
    · rintro ⟨s, e, hs, -⟩; exact Option.noConfusion hs
  | some s0 =>
    cases hl : lastIndexOf '}' (trimChars raw0) with
    | none =>
      simp only [extractJSON_eq, hf, hl]
      constructor
      · rintro ⟨js, h⟩; exact Except.noConfusion h
      · rintro ⟨s, e, -, he, -⟩; exact Option.noConfusion he
    | some e0 =>
      simp only [extractJSON_eq, hf, hl]
      by_cases hle : e0 ≤ s0
      · rw [if_pos hle]
        constructor
        · rintro ⟨js, h⟩; exact Except.noConfusion h
        · rintro ⟨s, e, hs, he, hlt, -⟩
          have hss : s0 = s := Option.some.inj hs
          have hee : e0 = e := Option.some.inj he
          omega
      · rw [if_neg hle]
        by_cases hd : d (sliceChars (trimChars raw0) s0 (e0 + 1)) = true
        · rw [if_pos hd]
          constructor
          · intro _; exact ⟨s0, e0, rfl, rfl, by omega, hd⟩
          · intro _; exact ⟨_, rfl⟩
        · rw [if_neg hd]
          constructor
          · rintro ⟨js, h⟩; exact Except.noConfusion h
          · rintro ⟨s, e, hs, he, -, hdd⟩
            have hss : s0 = s := Option.some.inj hs
            have hee : e0 = e := Option.some.inj he
            subst hss; subst hee
            exact absurd hdd hd

/-- On success, the returned slice is exactly the greedy first-to-last
slice, and it passed the decode check. -/
theorem extractJSON_ok_elim (d : List Char → Bool) (raw0 js : List Char)
    (h : extractJSON d raw0 = .ok js) :
    ∃ s e, firstIndexOf '{' (trimChars raw0) = some s
         ∧ lastIndexOf '}' (trimChars raw0) = some e ∧ s < e
         ∧ js = sliceChars (trimChars raw0) s (e + 1) ∧ d js = true := by
  rw [extractJSON_eq] at h
  cases hf : firstIndexOf '{' (trimChars raw0) with
  | none => rw [hf] at h; exact Except.noConfusion h
  | some s0 =>
    cases hl : lastIndexOf '}' (trimChars raw0) with
    | none => rw [hf, hl] at h; exact Except.noConfusion h
    | some e0 =>
      rw [hf, hl] at h
      dsimp only at h
      by_cases hle : e0 ≤ s0
      · rw [if_pos hle] at h; exact Except.noConfusion h
      · rw [if_neg hle] at h
        by_cases hd : d (sliceChars (trimChars raw0) s0 (e0 + 1)) = true
        · rw [if_pos hd] at h
          have := Except.ok.inj h
          subst this
          exact ⟨s0, e0, rfl, rfl, by omega, rfl, hd⟩
        · rw [if_neg hd] at h; exact Except.noConfusion h

/-- A `\x7b … \x7d` pair (in that order) exists iff the first `\x7b` comes
strictly before the last `\x7d`. -/
theorem brace_pair_iff (r : List Char) :
    (∃ i j : Nat, i < j ∧ r[i]? = some '{' ∧ r[j]? = some '}') ↔
      ∃ s e, firstIndexOf '{' r = some s ∧ lastIndexOf '}' r = some e ∧ s < e := by
  constructor
  · rintro ⟨i, j, hij, hi, hj⟩
    obtain ⟨s, hs⟩ : ∃ s, firstIndexOf '{' r = some s := by
      cases hf : firstIndexOf '{' r with
      | some s => exact ⟨s, rfl⟩
      | none => exact absurd hi ((firstIndexOf_eq_none '{' r).mp hf i)
    obtain ⟨e, he⟩ : ∃ e, lastIndexOf '}' r = some e := by
      cases hg : lastIndexOf '}' r with
      | some e => exact ⟨e, rfl⟩
      | none => exact absurd hj ((lastIndexOf_eq_none '}' r).mp hg j)
    obtain ⟨-, hsmin⟩ := (firstIndexOf_eq_some '{' r s).mp hs
    obtain ⟨-, hemax⟩ := (lastIndexOf_eq_some '}' r e).mp he
    have hsi : ¬ i < s := fun hlt => hsmin i hlt hi
    have hje : ¬ e < j := fun hlt => hemax j hlt hj
    exact ⟨s, e, hs, he, by omega⟩
  · rintro ⟨s, e, hs, he, hse⟩
    obtain ⟨h1, -⟩ := (firstIndexOf_eq_some '{' r s).mp hs
    obtain ⟨h2, -⟩ := (lastIndexOf_eq_some '}' r e).mp he
    exact ⟨s, e, hse, h1, h2⟩

/-- `ParseRootCause` succeeds iff extraction succeeds and the record
decode succeeds on the extracted slice. -/
theorem parseRootCause_ok_iff (d : List Char → Bool)
    (dRC : List Char → Option RootCauseResult) (raw : List Char) :
    (∃ rc, PromptBuilder.ParseRootCause d dRC raw = .ok rc) ↔
      (∃ js, extractJSON d raw = .ok js ∧ (dRC js).isSome = true) := by
  unfold PromptBuilder.ParseRootCause
  cases hx : extractJSON d raw with
  | error e =>
    simp only [hx]
    constructor
    · rintro ⟨rc, h⟩; exact Except.noConfusion h
    · rintro ⟨js, hjs, -⟩; exact Except.noConfusion hjs
  | ok js0 =>
    simp only [hx]
    cases hd : dRC js0 with
    | none =>
      simp only [hd]
      constructor
      · rintro ⟨rc, h⟩; exact Except.noConfusion h
      · rintro ⟨js, hjs, hsome⟩
        have := Except.ok.inj hjs
        subst this
        rw [hd] at hsome
        exact Bool.noConfusion hsome
    | some rc0 =>
      simp only [hd]
      constructor
      · intro _; exact ⟨js0, rfl, by rw [hd]; rfl⟩
      · intro _; exact ⟨rc0, rfl⟩

/-- `ParseSolution` succeeds iff extraction and record decode succeed. -/
theorem parseSolution_ok_iff (d : List Char → Bool)
    (dSol : List Char → Option SolutionResult) (raw : List Char) :
    (∃ sol, PromptBuilder.ParseSolution d dSol raw = .ok sol) ↔
      (∃ js, extractJSON d raw = .ok js ∧ (dSol js).isSome = true) := by
  unfold PromptBuilder.ParseSolution
  cases hx : extractJSON d raw with
  | error e =>
    simp only [hx]
    constructor
    · rintro ⟨sol, h⟩; exact Except.noConfusion h
    · rintro ⟨js, hjs, -⟩; exact Except.noConfusion hjs
  | ok js0 =>
    simp only [hx]
    cases hd : dSol js0 with
    | none =>
      simp only [hd]
      constructor
      · rintro ⟨sol, h⟩; exact Except.noConfusion h
      · rintro ⟨js, hjs, hsome⟩
        have := Except.ok.inj hjs
        subst this
        rw [hd] at hsome
        exact Bool.noConfusion hsome
    | some sol0 =>
      simp only [hd]
      constructor
      · intro _; exact ⟨js0, rfl, by rw [hd]; rfl⟩
      · intro _; exact ⟨sol0, rfl⟩

/-- `ParseReframe` succeeds iff extraction and record decode succeed. -/
theorem parseReframe_ok_iff (d : List Char → Bool)
    (dRef : List Char → Option ReframedQuestion) (raw : List Char) :
    (∃ ref, PromptBuilder.ParseReframe d dRef raw = .ok ref) ↔
      (∃ js, extractJSON d raw = .ok js ∧ (dRef js).isSome = true) := by
  unfold PromptBuilder.ParseReframe
  cases hx : extractJSON d raw with
  | error e =>
    simp only [hx]
    constructor
    · rintro ⟨ref, h⟩; exact Except.noConfusion h
    · rintro ⟨js, hjs, -⟩; exact Except.noConfusion hjs
  | ok js0 =>
    simp only [hx]
    cases hd : dRef js0 with
    | none =>
      simp only [hd]
      constructor
      · rintro ⟨ref, h⟩; exact Except.noConfusion h
      · rintro ⟨js, hjs, hsome⟩
        have := Except.ok.inj hjs
        subst this
        rw [hd] at hsome
        exact Bool.noConfusion hsome
    | some ref0 =>
      simp only [hd]
      constructor
      · intro _; exact ⟨js0, rfl, by rw [hd]; rfl⟩
      · intro _; exact ⟨ref0, rfl⟩

/-- Claim C2: structured-payload extraction trims, slices from the first
`{` to the last `}` inclusive (greedy, not nested-aware), and decodes; it
fails exactly when no such pair exists (including a last `}` not after
the first `{`) or the slice fails the decode; and each of
ParseRootCause/ParseSolution/ParseReframe succeeds iff the extraction and
the subsequent record decode succeed. -/
theorem extractJSON_greedy_spec (d : List Char → Bool) (raw : List Char)
    (dRC : List Char → Option RootCauseResult)
    (dSol : List Char → Option SolutionResult)
    (dRef : List Char → Option ReframedQuestion) :
    ((∃ js, extractJSON d raw = .ok js) ↔
       ∃ s e, firstIndexOf '{' (trimChars raw) = some s
            ∧ lastIndexOf '}' (trimChars raw) = some e ∧ s < e
            ∧ d (sliceChars (trimChars raw) s (e + 1)) = true)
    ∧ (∀ js, extractJSON d raw = .ok js →
         ∃ s e, firstIndexOf '{' (trimChars raw) = some s
              ∧ lastIndexOf '}' (trimChars raw) = some e ∧ s < e
              ∧ js = sliceChars (trimChars raw) s (e + 1)
              ∧ (trimChars raw)[s]? = some '{'
              ∧ (∀ k : Nat, k < s → (trimChars raw)[k]? ≠ some '{')
              ∧ (trimChars raw)[e]? = some '}'
              ∧ (∀ k : Nat, e < k → (trimChars raw)[k]? ≠ some '}')
              ∧ d js = true)
    ∧ ((∃ i j : Nat, i < j ∧ (trimChars raw)[i]? = some '{'
          ∧ (trimChars raw)[j]? = some '}') ↔
        ∃ s e, firstIndexOf '{' (trimChars raw) = some s
             ∧ lastIndexOf '}' (trimChars raw) = some e ∧ s < e)
    ∧ ((∃ rc, PromptBuilder.ParseRootCause d dRC raw = .ok rc) ↔
        (∃ js, extractJSON d raw = .ok js ∧ (dRC js).isSome = true))
    ∧ ((∃ sol, PromptBuilder.ParseSolution d dSol raw = .ok sol) ↔
        (∃ js, extractJSON d raw = .ok js ∧ (dSol js).isSome = true))
    ∧ ((∃ ref, PromptBuilder.ParseReframe d dRef raw = .ok ref) ↔
        (∃ js, extractJSON d raw = .ok js ∧ (dRef js).isSome = true)) := by
  refine ⟨extractJSON_ok_iff d raw, ?_, brace_pair_iff (trimChars raw),
          parseRootCause_ok_iff d dRC raw, parseSolution_ok_iff d dSol raw,
          parseReframe_ok_iff d dRef raw⟩
  intro js h
  obtain ⟨s, e, hs, he, hlt, hslice, hd⟩ := extractJSON_ok_elim d raw js h
  obtain ⟨h1, h2⟩ := (firstIndexOf_eq_some '{' (trimChars raw) s).mp hs
  obtain ⟨h3, h4⟩ := (lastIndexOf_eq_some '}' (trimChars raw) e).mp he
  exact ⟨s, e, hs, he, hlt, hslice, h1, h2, h3, h4, hd⟩

/-- Closed instance of C2: with an accepting decoder the payload sliced
out of `"ab\x7bx\x7dc\x7by\x7dd"` is the greedy `"\x7bx\x7dc\x7by\x7d"` (spanning both objects,
not nested-aware), and on `"\x7d\x7b"`, where the last `}` precedes the first
`{`, the extraction finds no payload. -/
theorem extractJSON_greedy_spec_witness :
    extractJSON (fun _ => true) "ab\x7bx\x7dc\x7by\x7dd".toList = .ok "\x7bx\x7dc\x7by\x7d".toList
    ∧ (∃ s e, firstIndexOf '{' (trimChars "ab\x7bx\x7dc\x7by\x7dd".toList) = some s
            ∧ lastIndexOf '}' (trimChars "ab\x7bx\x7dc\x7by\x7dd".toList) = some e ∧ s < e
            ∧ "\x7bx\x7dc\x7by\x7d".toList = sliceChars (trimChars "ab\x7bx\x7dc\x7by\x7dd".toList) s (e + 1)
            ∧ (trimChars "ab\x7bx\x7dc\x7by\x7dd".toList)[s]? = some '{'
            ∧ (∀ k : Nat, k < s → (trimChars "ab\x7bx\x7dc\x7by\x7dd".toList)[k]? ≠ some '{')
            ∧ (trimChars "ab\x7bx\x7dc\x7by\x7dd".toList)[e]? = some '}'
            ∧ (∀ k : Nat, e < k → (trimChars "ab\x7bx\x7dc\x7by\x7dd".toList)[k]? ≠ some '}')
            ∧ (fun _ => true) "\x7bx\x7dc\x7by\x7d".toList = true)
    ∧ extractJSON (fun _ => true) "\x7d\x7b".toList = .error "no json found in llm output" :=
  ⟨rfl,
   (extractJSON_greedy_spec (fun _ => true) "ab\x7bx\x7dc\x7by\x7dd".toList
      (fun _ => none) (fun _ => none) (fun _ => none)).2.1 "\x7bx\x7dc\x7by\x7d".toList rfl,
   rfl⟩

/-! ## Memory engine — `internal/modules/chat/handler.go` (memory part) -/

/-- `chat.MemoryMessage` (`time.Now()` is an abstract tick). -/
structure MemoryMessage where
  Role : String
  Content : String
  Timestamp : Nat
  deriving Repr, DecidableEq

/-- `chat.SessionMemory`. -/
structure SessionMemory where
  SessionID : String
  Messages : List MemoryMessage
  UpdatedAt : Nat
  deriving Repr, DecidableEq

/-- `chat.RetrievedMemory`. -/
structure RetrievedMemory where
  Documents : List Document
  Context : String
  deriving Repr, DecidableEq

/-- `chat.MemoryEngine`, as its external collaborators: redis `Get`
(go-redis returns `("", err)` on failure), `json.Unmarshal`/`json.Marshal`
of a `SessionMemory`, and the `vector.Store.Search` capability.

`json.Unmarshal(data, &session)` decodes in place and best-effort: it
populates the struct (starting from its zero value) as far as the payload
allows even when it also reports an error, e.g. a type error on one
field.  `unmarshalSession data` is therefore the pair of the struct state
after the call and the optional error: callers that ignore the error
(`AppendSession`) keep the possibly partially populated first component,
and callers that propagate it (`GetSession`) look at the second. -/
structure MemoryEngine where
  redisGet : String → Except String String
  unmarshalSession : String → SessionMemory × Option String
  marshalSession : SessionMemory → String
  search : List ℚ → Int → Except String (List Document)

/-- `llm.Manager.Embed`: the source's deterministic stub — fails on empty
text, else a 384-entry vector with `vec[i] = len(text)/(i+1)`. -/
def Manager.Embed (text : String) : Except String (List ℚ) :=
  if text = "" then .error "empty text"
  else .ok ((List.range 384).map fun i => (text.utf8ByteSize : ℚ) / ((i : ℚ) + 1))

/-- `MemoryEngine.GetSession`: redis error or empty payload is
`"session not found"`; an unmarshal error is propagated, otherwise the
decoded session is returned. -/
def MemoryEngine.GetSession (m : MemoryEngine) (sessionID : String) :
    Except String SessionMemory :=
  match m.redisGet ("session:" ++ sessionID) with
  | .error _ => .error "session not found"
  | .ok data =>
    if data = "" then .error "session not found"
    else
      match m.unmarshalSession data with
      | (_, some err) => .error err
      | (s, none) => .ok s

/-- `MemoryEngine.Recall`: reject an empty query, embed it, search, and
concatenate the matched documents' content with newline separators. -/
def MemoryEngine.Recall (m : MemoryEngine) (query : String) (limit : Int) :
    Except String RetrievedMemory :=
  if query = "" then .error "empty query"
  else
    match Manager.Embed query with
    | .error e => .error e
    | .ok emb =>
      match m.search emb limit with
      | .error e => .error e
      | .ok docs =>
        .ok { Documents := docs,
              Context := String.join (docs.map fun d => d.Content ++ "\n") }

/-- The `role: content` transcript lines `HybridContext` renders. -/
def transcriptLines (msgs : List MemoryMessage) : String :=
  String.join (msgs.map fun msg => msg.Role ++ ": " ++ msg.Content ++ "\n")

/-- `MemoryEngine.HybridContext`: best-effort concatenation — a failed
session lookup contributes nothing, a failed recall contributes nothing,
and the function itself always succeeds. -/
def MemoryEngine.HybridContext (m : MemoryEngine) (sessionID query : String)
    (limit : Int) : Except String String :=
  let sessionPart :=
    match m.GetSession sessionID with
    | .ok session => transcriptLines session.Messages
    | .error _ => ""
  let vectorPart :=
    match m.Recall query limit with
    | .ok rec0 => "\n--- Semantic Memory ---\n" ++ rec0.Context
    | .error _ => ""
  .ok (sessionPart ++ vectorPart)

/-- The one redis `Set` call `AppendSession` issues (its result is
discarded by the source). -/
structure RedisSetCall where
  Key : String
  Value : String
  TTLHours : Nat
  deriving Repr, DecidableEq

/-- The Go zero value `SessionMemory{}`. -/
def zeroSession : SessionMemory := { SessionID := "", Messages := [], UpdatedAt := 0 }

/-- `MemoryEngine.AppendSession`: reject an empty session id; load the
stored transcript best-effort (`data, _ := Get`; when the payload is
non-empty, `_ = json.Unmarshal(data, &session)` — the error is ignored
and the struct keeps whatever the decoder populated, possibly a partial
transcript), append the timestamped message, and rewrite under a
refreshed 24-hour expiry.  The returned value is the `Set` call made;
the source returns `nil` regardless of that write's outcome, so no error
path depends on it. -/
def MemoryEngine.AppendSession (m : MemoryEngine) (sessionID role content : String)
    (now : Nat) : Except String RedisSetCall :=
  if sessionID = "" then .error "missing session id"
  else
    let key := "session:" ++ sessionID
    let msg : MemoryMessage := { Role := role, Content := content, Timestamp := now }
    let data := match m.redisGet key with | .ok d => d | .error _ => ""
    let loaded : SessionMemory :=
      if data ≠ "" then (m.unmarshalSession data).1 else zeroSession
    let updated : SessionMemory :=
      { SessionID := sessionID, Messages := loaded.Messages ++ [msg], UpdatedAt := now }
    .ok { Key := key, Value := m.marshalSession updated, TTLHours := 24 }

/-! ## Vector store — `internal/modules/vector/pgvector.go` -/

/-- `PgVectorStore.Store`: input validation, then the upsert statement
(`INSERT … ON CONFLICT (id) DO UPDATE`) run against the database; the
database execution is the external parameter `exec`. -/
def PgVectorStore.Store (exec : Document → Except String Unit) (doc : Document) :
    Except String Unit :=
  if doc.ID = "" then .error "missing document id"
  else if doc.Vector.isEmpty then .error "missing embedding vector"
  else exec doc

/-- `PgVectorStore.Search`: input validation, clamping of a non-positive
limit to 5, then the `LIMIT`-bounded nearest-neighbour query, run by the
external `runQuery` with the clamped limit. -/
def PgVectorStore.Search (runQuery : List ℚ → Int → Except String (List Document))
    (vec : List ℚ) (limit : Int) : Except String (List Document) :=
  if vec.isEmpty then .error "empty query vector"
  else runQuery vec (if limit ≤ 0 then 5 else limit)

/-- Clamping: any non-positive limit behaves as limit 5. -/
theorem search_clamp (runQuery : List ℚ → Int → Except String (List Document))
    (vec : List ℚ) (limit : Int) (h : limit ≤ 0) :
    PgVectorStore.Search runQuery vec limit = PgVectorStore.Search runQuery vec 5 := by
  unfold PgVectorStore.Search
  rw [if_pos h, if_neg (by norm_num : ¬ (5 : Int) ≤ 0)]

/-! ## Claims about the memory engine and vector store -/

/-- Claim C5: `HybridContext` never returns an error; a failed session
lookup contributes no transcript lines, a failed recall contributes no
semantic-memory section, and with an absent session and a successful
vector search the result is exactly the `--- Semantic Memory ---` section
followed by the recalled context. -/
theorem hybridContext_never_fails (m : MemoryEngine) (sid q : String) (limit : Int) :
    (∃ s, m.HybridContext sid q limit = .ok s)
    ∧ (∀ err r, m.GetSession sid = .error err → m.Recall q limit = .ok r →
        m.HybridContext sid q limit = .ok ("\n--- Semantic Memory ---\n" ++ r.Context))
    ∧ (∀ s err, m.GetSession sid = .ok s → m.Recall q limit = .error err →
        m.HybridContext sid q limit = .ok (transcriptLines s.Messages))
    ∧ (∀ err err2, m.GetSession sid = .error err → m.Recall q limit = .error err2 →
        m.HybridContext sid q limit = .ok "")
    ∧ (∀ s r, m.GetSession sid = .ok s → m.Recall q limit = .ok r →
        m.HybridContext sid q limit =
          .ok (transcriptLines s.Messages ++ ("\n--- Semantic Memory ---\n" ++ r.Context))) := by
  refine ⟨⟨_, rfl⟩, ?_, ?_, ?_, ?_⟩
  · intro err r h1 h2
    simp [MemoryEngine.HybridContext, h1, h2]
  · intro s err h1 h2
    simp [MemoryEngine.HybridContext, h1, h2]
  · intro err err2 h1 h2
    simp [MemoryEngine.HybridContext, h1, h2]
  · intro s r h1 h2
    simp [MemoryEngine.HybridContext, h1, h2]

/-- Engine whose redis always fails and whose vector search returns one
document, for the C5 witness. -/
def demoMem : MemoryEngine :=
  { redisGet := fun _ => .error "connection refused",
    unmarshalSession := fun _ => (zeroSession, some "bad json"),
    marshalSession := fun _ => "blob",
    search := fun _ _ => .ok [{ ID := "d1", Content := "mem", Vector := [], Meta := [] }] }

/-- Closed instance of C5: a non-existent session id with a successful
vector search yields only the semantic-memory section. -/
theorem hybridContext_never_fails_witness :
    demoMem.HybridContext "nope" "q" 3 = .ok ("\n--- Semantic Memory ---\n" ++ "mem\n") :=
  (hybridContext_never_fails demoMem "nope" "q" 3).2.1 "session not found"
    { Documents := [{ ID := "d1", Content := "mem", Vector := [], Meta := [] }],
      Context := "mem\n" } rfl rfl

/-- Claim C7: `Store` fails exactly when the identifier or the embedding
vector is empty and otherwise performs the upsert; `Search` fails on an
empty query vector and treats every non-positive limit as 5; hence
`Recall` over this store with limit 0 or -3 requests at most 5 results
(it runs exactly as with limit 5). -/
theorem vectorStore_validation_and_clamp
    (exec : Document → Except String Unit) (doc : Document)
    (runQuery : List ℚ → Int → Except String (List Document))
    (vec : List ℚ) (lim : Int)
    (rg : String → Except String String) (um : String → SessionMemory × Option String)
    (ms : SessionMemory → String) (q : String) :
    (doc.ID = "" → PgVectorStore.Store exec doc = .error "missing document id")
    ∧ (doc.ID ≠ "" → doc.Vector = [] →
        PgVectorStore.Store exec doc = .error "missing embedding vector")
    ∧ (doc.ID ≠ "" → doc.Vector ≠ [] → PgVectorStore.Store exec doc = exec doc)
    ∧ ((∃ msg, PgVectorStore.Store (fun _ => .ok ()) doc = .error msg) ↔
        (doc.ID = "" ∨ doc.Vector = []))
    ∧ (vec = [] → PgVectorStore.Search runQuery vec lim = .error "empty query vector")
    ∧ (lim ≤ 0 →
        PgVectorStore.Search runQuery vec lim = PgVectorStore.Search runQuery vec 5)
    ∧ (MemoryEngine.Recall
        { redisGet := rg, unmarshalSession := um, marshalSession := ms,
          search := PgVectorStore.Search runQuery } q 0 =
       MemoryEngine.Recall
        { redisGet := rg, unmarshalSession := um, marshalSession := ms,
          search := PgVectorStore.Search runQuery } q 5)
    ∧ (MemoryEngine.Recall
        { redisGet := rg, unmarshalSession := um, marshalSession := ms,
          search := PgVectorStore.Search runQuery } q (-3) =
       MemoryEngine.Recall
        { redisGet := rg, unmarshalSession := um, marshalSession := ms,
          search := PgVectorStore.Search runQuery } q 5) := by
  refine ⟨?_, ?_, ?_, ?_, ?_, search_clamp runQuery vec lim, ?_, ?_⟩
  · intro h; simp [PgVectorStore.Store, h]
  · intro h1 h2; simp [PgVectorStore.Store, h1, h2]
  · intro h1 h2; simp [PgVectorStore.Store, h1, List.isEmpty_iff, h2]
  · constructor
    · rintro ⟨msg, hmsg⟩
      by_cases h1 : doc.ID = ""
      · exact Or.inl h1
      by_cases h2 : doc.Vector = []
      · exact Or.inr h2
      · simp [PgVectorStore.Store, h1, List.isEmpty_iff, h2] at hmsg
    · rintro (h | h)
      · exact ⟨"missing document id", by simp [PgVectorStore.Store, h]⟩
      · by_cases h1 : doc.ID = ""
        · exact ⟨"missing document id", by simp [PgVectorStore.Store, h1]⟩
        · exact ⟨"missing embedding vector",
            by simp [PgVectorStore.Store, h1, List.isEmpty_iff, h]⟩
  · intro h; simp [PgVectorStore.Search, h]
  · have h0 : ∀ v, PgVectorStore.Search runQuery v 0 = PgVectorStore.Search runQuery v 5 :=
      fun v => search_clamp runQuery v 0 (by norm_num)
    unfold MemoryEngine.Recall
    simp only [h0]
  · have h3 : ∀ v, PgVectorStore.Search runQuery v (-3) = PgVectorStore.Search runQuery v 5 :=
      fun v => search_clamp runQuery v (-3) (by norm_num)
    unfold MemoryEngine.Recall
    simp only [h3]

/-- Closed instance of C7: a document with an empty id is rejected, one
with an empty vector is rejected, and recall over the pgvector search
with limit 0 and -3 equals recall with limit 5. -/
theorem vectorStore_validation_and_clamp_witness :
    PgVectorStore.Store (fun _ => .ok ())
        { ID := "", Content := "c", Vector := [1], Meta := [] } =
      .error "missing document id"
    ∧ PgVectorStore.Store (fun _ => .ok ())
        { ID := "d", Content := "c", Vector := [], Meta := [] } =
      .error "missing embedding vector"
    ∧ MemoryEngine.Recall
        { redisGet := fun _ => .error "down", unmarshalSession := fun _ => (zeroSession, some "x"),
          marshalSession := fun _ => "", search := PgVectorStore.Search fun _ _ => .ok [] }
        "hello" 0 =
      MemoryEngine.Recall
        { redisGet := fun _ => .error "down", unmarshalSession := fun _ => (zeroSession, some "x"),
          marshalSession := fun _ => "", search := PgVectorStore.Search fun _ _ => .ok [] }
        "hello" 5
    ∧ MemoryEngine.Recall
        { redisGet := fun _ => .error "down", unmarshalSession := fun _ => (zeroSession, some "x"),
          marshalSession := fun _ => "", search := PgVectorStore.Search fun _ _ => .ok [] }
        "hello" (-3) =
      MemoryEngine.Recall
        { redisGet := fun _ => .error "down", unmarshalSession := fun _ => (zeroSession, some "x"),
          marshalSession := fun _ => "", search := PgVectorStore.Search fun _ _ => .ok [] }
        "hello" 5 :=
  ⟨(vectorStore_validation_and_clamp (fun _ => .ok ())
      { ID := "", Content := "c", Vector := [1], Meta := [] }
      (fun _ _ => .ok []) [] 0 (fun _ => .error "down") (fun _ => (zeroSession, some "x"))
      (fun _ => "") "hello").1 rfl,
   (vectorStore_validation_and_clamp (fun _ => .ok ())
      { ID := "d", Content := "c", Vector := [], Meta := [] }
      (fun _ _ => .ok []) [] 0 (fun _ => .error "down") (fun _ => (zeroSession, some "x"))
      (fun _ => "") "hello").2.1 (by decide) rfl,
   (vectorStore_validation_and_clamp (fun _ => .ok ())
      { ID := "d", Content := "c", Vector := [], Meta := [] }
      (fun _ _ => .ok []) [] 0 (fun _ => .error "down") (fun _ => (zeroSession, some "x"))
      (fun _ => "") "hello").2.2.2.2.2.2.1,
   (vectorStore_validation_and_clamp (fun _ => .ok ())
      { ID := "d", Content := "c", Vector := [], Meta := [] }
      (fun _ _ => .ok []) [] 0 (fun _ => .error "down") (fun _ => (zeroSession, some "x"))
      (fun _ => "") "hello").2.2.2.2.2.2.2⟩

/-- Claim C8: `AppendSession` fails exactly when the session id is empty;
for every non-empty id it succeeds — also when the store's read fails or
its payload does not decode cleanly — and the one `Set` call it issues
targets `session:<id>` with a refreshed 24-hour expiry and the loaded
transcript (the struct `json.Unmarshal` best-effort-populated, whether or
not it also reported an error) plus the one appended timestamped message;
the unmarshal error component never influences the call. -/
theorem appendSession_spec (m : MemoryEngine) (sid role content : String) (now : Nat) :
    ((∃ msg, m.AppendSession sid role content now = .error msg) ↔ sid = "")
    ∧ (sid ≠ "" → ∀ data, m.redisGet ("session:" ++ sid) = .ok data → data ≠ "" →
        m.AppendSession sid role content now =
          .ok { Key := "session:" ++ sid,
                Value := m.marshalSession
                  { SessionID := sid,
                    Messages := (m.unmarshalSession data).1.Messages ++
                      [{ Role := role, Content := content, Timestamp := now }],
                    UpdatedAt := now },
                TTLHours := 24 })
    ∧ (sid ≠ "" → ∀ err, m.redisGet ("session:" ++ sid) = .error err →
        m.AppendSession sid role content now =
          .ok { Key := "session:" ++ sid,
                Value := m.marshalSession
                  { SessionID := sid,
                    Messages := [{ Role := role, Content := content, Timestamp := now }],
                    UpdatedAt := now },
                TTLHours := 24 })
    ∧ (sid ≠ "" → m.redisGet ("session:" ++ sid) = .ok "" →
        m.AppendSession sid role content now =
          .ok { Key := "session:" ++ sid,
                Value := m.marshalSession
                  { SessionID := sid,
                    Messages := [{ Role := role, Content := content, Timestamp := now }],
                    UpdatedAt := now },
                TTLHours := 24 })
    ∧ (∀ m2 : MemoryEngine, m2.redisGet = m.redisGet →
        m2.marshalSession = m.marshalSession →
        (∀ d, (m2.unmarshalSession d).1 = (m.unmarshalSession d).1) →
        m2.AppendSession sid role content now = m.AppendSession sid role content now) := by
  refine ⟨?_, ?_, ?_, ?_, ?_⟩
  · constructor
    · rintro ⟨msg, hmsg⟩
      by_cases h : sid = ""
      · exact h
      · rw [MemoryEngine.AppendSession, if_neg h] at hmsg
        exact Except.noConfusion hmsg
    · intro h
      exact ⟨"missing session id", by rw [MemoryEngine.AppendSession, if_pos h]⟩
  · intro h data hget hdata
    rw [MemoryEngine.AppendSession, if_neg h]
    simp only [hget, if_pos hdata]
  · intro h err hget
    rw [MemoryEngine.AppendSession, if_neg h]
    simp [hget, zeroSession]
  · intro h hget
    rw [MemoryEngine.AppendSession, if_neg h]
    simp [hget, zeroSession]
  · intro m2 hrg hms hum
    unfold MemoryEngine.AppendSession
    rw [hrg, hms]
    by_cases h : sid = ""
    · rw [if_pos h, if_pos h]
    · rw [if_neg h, if_neg h]
      simp only [hum]

/-- Engine whose redis holds a payload that only partially decodes: the
unmarshal reports a type error but still populates one old message, which
the append must keep (best-effort decoding). -/
def demoMemPartial : MemoryEngine :=
  { redisGet := fun _ => .ok "stored",
    unmarshalSession := fun _ =>
      ({ SessionID := "", Messages := [{ Role := "user", Content := "old", Timestamp := 1 }],
         UpdatedAt := 0 }, some "json: cannot unmarshal field"),
    marshalSession := fun s => toString s.Messages.length,
    search := fun _ _ => .ok [] }

/-- Closed instance of C8: with an unreachable redis the append still
succeeds, writing the single-message transcript under a 24-hour expiry;
with a partially decoding payload the recovered old message is kept ahead
of the appended one (the marshal here records the message count: 2); and
the empty session id is rejected. -/
theorem appendSession_spec_witness :
    demoMem.AppendSession "s1" "user" "hi" 7 =
      .ok { Key := "session:s1", Value := "blob", TTLHours := 24 }
    ∧ demoMemPartial.AppendSession "s1" "user" "hi" 7 =
        .ok { Key := "session:s1", Value := "2", TTLHours := 24 }
    ∧ ((∃ msg, demoMem.AppendSession "" "user" "hi" 7 = .error msg) ↔ ("" : String) = "") :=
  ⟨(appendSession_spec demoMem "s1" "user" "hi" 7).2.2.1 (by decide) "connection refused" rfl,
   (appendSession_spec demoMemPartial "s1" "user" "hi" 7).2.1 (by decide) "stored" rfl
     (by decide),
   (appendSession_spec demoMem "" "user" "hi" 7).1⟩

end QuavixAI
